import Mathlib

/-!
Verification development for the MemGPT/Letta metadata store
(`src/letta/metadata.py` and `src/memgpt/metadata.py`).

The Python modules are shallowly embedded: SQLAlchemy tables become lists of
row structures, a repository operation becomes a pure function from store to
store (returning `Except` where the Python code raises), and the JSON column
codecs become functions over an explicit JSON value type.  A raised exception
rolls the scoped session back, so an `Except.error` result models "the store
is unchanged".
-/

/-- JSON-compatible values, as stored in a JSON column. -/
inductive Json where
  | null : Json
  | str (s : String) : Json
  | num (n : Int) : Json
  | bool (b : Bool) : Json
  | obj (fields : List (String × Json)) : Json
  | arr (elems : List Json) : Json

/-- Python truthiness (`if value:`) of a JSON-compatible value:
`None`, `""`, `0`, `False`, `{}` and `[]` are falsy. -/
def Json.truthy : Json → Bool
  | .null => false
  | .str s => !(s == "")
  | .num n => !(n == 0)
  | .bool b => b
  | .obj fields => !fields.isEmpty
  | .arr elems => !elems.isEmpty

/-- Errors surfaced by the embedded repository and codec code.
`alreadyExists` models the `ValueError(... already exists)` raises,
`integrity` models a failing `assert len(results) == 1`, and
`decodeError` models a codec failing to rebuild its structured type. -/
inductive StoreError where
  | alreadyExists : StoreError
  | integrity : StoreError
  | decodeError : StoreError
  deriving DecidableEq

namespace Letta

/-- Modelled from the spec: the model-configuration record (`LLMConfig`,
`letta/schemas/llm_config.py` is not under src/).  §3 describes it as the
"model-config object"; representative required fields are used. -/
structure LLMConfig where
  model : String
  model_endpoint_type : String
  context_window : Int
  deriving DecidableEq

/-- Modelled from the spec: Pydantic `model_dump()` of an `LLMConfig`,
producing the canonical JSON mapping of its fields. -/
def LLMConfig.model_dump (c : LLMConfig) : Json :=
  .obj [("model", .str c.model),
        ("model_endpoint_type", .str c.model_endpoint_type),
        ("context_window", .num c.context_window)]

/-- Modelled from the spec: keyword construction `LLMConfig(**value)` from a
stored mapping; fails (`none`) when the mapping cannot populate the required
fields (spec §4.1 DecodeError). -/
def LLMConfig.ofJson : Json → Option LLMConfig
  | .obj [("model", .str m), ("model_endpoint_type", .str t), ("context_window", .num n)] =>
      some ⟨m, t, n⟩
  | _ => none

/-- Modelled from the spec: the embedding-configuration record
(`EmbeddingConfig`; `letta/schemas/embedding_config.py` is not under src/). -/
structure EmbeddingConfig where
  embedding_model : String
  embedding_endpoint_type : String
  embedding_dim : Int
  deriving DecidableEq

/-- Modelled from the spec: `model_dump()` of an `EmbeddingConfig`. -/
def EmbeddingConfig.model_dump (c : EmbeddingConfig) : Json :=
  .obj [("embedding_model", .str c.embedding_model),
        ("embedding_endpoint_type", .str c.embedding_endpoint_type),
        ("embedding_dim", .num c.embedding_dim)]

/-- Modelled from the spec: keyword construction `EmbeddingConfig(**value)`. -/
def EmbeddingConfig.ofJson : Json → Option EmbeddingConfig
  | .obj [("embedding_model", .str m), ("embedding_endpoint_type", .str t),
          ("embedding_dim", .num n)] => some ⟨m, t, n⟩
  | _ => none

/-- Modelled from the spec: the nested function payload of a tool call
(`ToolCallFunction`; `letta/schemas/openai/chat_completions.py` is not under
src/). -/
structure ToolCallFunction where
  name : String
  arguments : String
  deriving DecidableEq

/-- Modelled from the spec: `model_dump()` of a `ToolCallFunction`. -/
def ToolCallFunction.model_dump (f : ToolCallFunction) : Json :=
  .obj [("name", .str f.name), ("arguments", .str f.arguments)]

/-- Modelled from the spec: keyword construction `ToolCallFunction(**value)`. -/
def ToolCallFunction.ofJson : Json → Option ToolCallFunction
  | .obj [("name", .str n), ("arguments", .str a)] => some ⟨n, a⟩
  | _ => none

/-- Modelled from the spec: one element of a tool-call list.  Per §4.1 an
element may lack its nested function payload, which must decode as `empty`,
so the payload is optional. -/
structure ToolCall where
  id : String
  type : String
  function : Option ToolCallFunction
  deriving DecidableEq

/-- Modelled from the spec: `model_dump()` of a `ToolCall`; an absent
function payload is omitted from the dumped mapping (§4.1 requires the
missing-payload form to decode back to `empty`). -/
def ToolCall.model_dump (tc : ToolCall) : Json :=
  .obj ([("id", .str tc.id), ("type", .str tc.type)] ++
        (match tc.function with
         | some f => [("function", f.model_dump)]
         | none => []))

/-- `LLMConfigColumn.process_bind_param` (src/letta/metadata.py:85-90):
`if value:` — `None` is returned unchanged (never encoded into `{}`); a
config instance is truthy and hits the `isinstance` branch, returning its
`model_dump()`. -/
def LLMConfigColumn.process_bind_param : Option LLMConfig → Option Json
  | none => none
  | some c => some c.model_dump

/-- `LLMConfigColumn.process_result_value` (src/letta/metadata.py:92-95):
`if value:` — a stored truthy mapping is rebuilt with `LLMConfig(**value)`
(raising on malformed data), anything falsy (NULL, or a falsy JSON value) is
returned unchanged. -/
def LLMConfigColumn.process_result_value :
    Option Json → Except StoreError (Option (LLMConfig ⊕ Json))
  | none => .ok none
  | some j =>
      if j.truthy then
        match LLMConfig.ofJson j with
        | some c => .ok (some (Sum.inl c))
        | none => .error .decodeError
      else .ok (some (Sum.inr j))

/-- `EmbeddingConfigColumn.process_bind_param` (src/letta/metadata.py:107-112). -/
def EmbeddingConfigColumn.process_bind_param : Option EmbeddingConfig → Option Json
  | none => none
  | some c => some c.model_dump

/-- `EmbeddingConfigColumn.process_result_value` (src/letta/metadata.py:114-117). -/
def EmbeddingConfigColumn.process_result_value :
    Option Json → Except StoreError (Option (EmbeddingConfig ⊕ Json))
  | none => .ok none
  | some j =>
      if j.truthy then
        match EmbeddingConfig.ofJson j with
        | some c => .ok (some (Sum.inl c))
        | none => .error .decodeError
      else .ok (some (Sum.inr j))

/-- `ToolCallColumn.process_bind_param` (src/letta/metadata.py:128-138):
`None` passes through; a list maps each `ToolCall` element to its
`model_dump()`.  (The empty list is falsy in Python and is returned
unchanged, which stores the same empty JSON array the mapped branch would
produce.) -/
def ToolCallColumn.process_bind_param : Option (List ToolCall) → Option Json
  | none => none
  | some vs => some (.arr (vs.map ToolCall.model_dump))

/-- One iteration of the decode loop in `ToolCallColumn.process_result_value`
(src/letta/metadata.py:142-149): if the element has a `"function"` key, the
payload is rebuilt with `ToolCallFunction(**...)` and the key removed
(`del tool_value["function"]`); otherwise the payload is `None`; the rest of
the element is passed to `ToolCall(function=..., **tool_value)`. -/
def decodeToolCallElem (j : Json) : Except StoreError ToolCall :=
  match j with
  | .obj fields =>
      match fields.lookup "function" with
      | some fj =>
          match ToolCallFunction.ofJson fj with
          | some f =>
              match Json.obj (fields.filter (fun p => !(p.1 == "function"))) with
              | .obj [("id", .str i), ("type", .str t)] => .ok ⟨i, t, some f⟩
              | _ => .error .decodeError
          | none => .error .decodeError
      | none =>
          match fields with
          | [("id", .str i), ("type", .str t)] => .ok ⟨i, t, none⟩
          | _ => .error .decodeError
  | _ => .error .decodeError

/-- `ToolCallColumn.process_result_value` (src/letta/metadata.py:140-151):
NULL passes through; a truthy stored array is decoded element-wise; the falsy
empty array is returned unchanged, which at the Python level is the empty
tool-call list; any other falsy JSON value is returned unchanged. -/
def ToolCallColumn.process_result_value :
    Option Json → Except StoreError (Option (List ToolCall ⊕ Json))
  | none => .ok none
  | some (.arr elems) =>
      if elems.isEmpty then .ok (some (Sum.inl []))
      else do
        let ts ← elems.mapM decodeToolCallElem
        .ok (some (Sum.inl ts))
  | some j =>
      if j.truthy then .error .decodeError
      else .ok (some (Sum.inr j))

end Letta

namespace Memgpt

/-- Modelled from the spec: the legacy-variant model-configuration record
(`memgpt/data_types.py` is not under src/); a plain class whose `vars(...)`
is the mapping of its attributes. -/
structure LLMConfig where
  model : String
  context_window : Int
  deriving DecidableEq

/-- Modelled from the spec: `vars(value)` of a `Memgpt.LLMConfig`. -/
def LLMConfig.vars_ (c : LLMConfig) : Json :=
  .obj [("model", .str c.model), ("context_window", .num c.context_window)]

/-- Modelled from the spec: keyword construction `LLMConfig(**value)`. -/
def LLMConfig.ofJson : Json → Option LLMConfig
  | .obj [("model", .str m), ("context_window", .num n)] => some ⟨m, n⟩
  | _ => none

/-- `LLMConfigColumn.process_bind_param` (src/memgpt/metadata.py:83-86):
`if value: return vars(value)`, else the value (`None`) unchanged. -/
def LLMConfigColumn.process_bind_param : Option LLMConfig → Option Json
  | none => none
  | some c => some c.vars_

/-- `LLMConfigColumn.process_result_value` (src/memgpt/metadata.py:88-91). -/
def LLMConfigColumn.process_result_value :
    Option Json → Except StoreError (Option (LLMConfig ⊕ Json))
  | none => .ok none
  | some j =>
      if j.truthy then
        match LLMConfig.ofJson j with
        | some c => .ok (some (Sum.inl c))
        | none => .error .decodeError
      else .ok (some (Sum.inr j))

end Memgpt

/-- Python truthiness of an optional string argument (`if cursor:`,
`if tool_id:` …): `None` and the empty string are falsy. -/
def optStrTruthy : Option String → Bool
  | none => false
  | some s => !(s == "")

/-- The "exactly zero or one row" unique-lookup protocol shared by the
getters: `if len(results) == 0: return None` followed by
`assert len(results) == 1` (a failing assertion is the integrity
violation). -/
def one_or_none {α : Type} : List α → Except StoreError (Option α)
  | [] => .ok none
  | [x] => .ok (some x)
  | _ => .error .integrity

/-- The strict lexicographic order on identifier strings (the engine's
`ORDER BY` / `<` / `>` comparison on id columns), as an executable Boolean;
it agrees with Lean's `String` order (`strLtB_iff`). -/
def strLtB (a b : String) : Bool := decide (a.toList < b.toList)

/-- The reflexive lexicographic order on identifier strings. -/
def strLeB (a b : String) : Bool := !(strLtB b a)

/-- Keyset ordering used by the list operations: `order_by(asc(id))`,
embedded as a stable sort on the key. -/
def sortByKey {α : Type} (key : α → String) (l : List α) : List α :=
  l.insertionSort (fun a b => strLeB (key a) (key b) = true)

/-- `order_by(desc(id))` of memgpt `get_all_users`, embedded as a stable
sort on the reversed key order. -/
def sortByKeyDesc {α : Type} (key : α → String) (l : List α) : List α :=
  l.insertionSort (fun a b => strLeB (key b) (key a) = true)

namespace Letta

/-- `AgentModel` (src/letta/metadata.py:202-231).  Columns not touched by the
claims under verification (created_at, description, message_ids, memory,
system, tools, agent_type, llm_config, embedding_config, metadata_) are
omitted; they ride along unexamined in every operation modelled here. -/
structure AgentRow where
  id : String
  user_id : String
  name : String
  deriving DecidableEq

/-- `SourceModel` (src/letta/metadata.py:256-271); claim-irrelevant columns
(created_at, embedding_config, description, metadata_) omitted. -/
structure SourceRow where
  id : String
  user_id : String
  name : String
  deriving DecidableEq

/-- `AgentSourceMappingModel` (src/letta/metadata.py:290-299). -/
structure MappingRow where
  id : String
  user_id : String
  agent_id : String
  source_id : String
  deriving DecidableEq

/-- `BlockModel` (src/letta/metadata.py:305-318); claim-irrelevant columns
(value's size limit, metadata_, description) omitted. -/
structure BlockRow where
  id : String
  value : String
  name : String
  template : Bool
  label : Option String
  user_id : Option String
  deriving DecidableEq

/-- `ToolModel` (src/letta/metadata.py:362-374); a NULL `user_id` marks a
globally shared tool; claim-irrelevant columns omitted. -/
structure ToolRow where
  id : String
  name : String
  user_id : Option String
  deriving DecidableEq

/-- Modelled from the spec: the job status enum (`letta/schemas/enums.py` is
not under src/); §3 gives the member set pending, running, completed,
failed. -/
inductive JobStatus where
  | pending : JobStatus
  | running : JobStatus
  | completed : JobStatus
  | failed : JobStatus
  deriving DecidableEq

/-- Modelled from the spec: the terminal-success status value the code
compares against (`JobStatus.COMPLETED`). -/
def JobStatus.COMPLETED : JobStatus := JobStatus.completed

/-- `JobModel` (src/letta/metadata.py:393-402).  `completed_at` carries
`onupdate=func.now()` (line 401), so every UPDATE statement that does not set
it explicitly stamps it with the current time.  Timestamps are abstract
naturals; claim-irrelevant columns (user_id, created_at, metadata_)
omitted. -/
structure JobRow where
  id : String
  status : JobStatus
  completed_at : Option Nat
  deriving DecidableEq

/-- `APIKeyModel` (src/letta/metadata.py:166-191). -/
structure APIKeyRow where
  id : String
  user_id : String
  key : String
  name : String
  deriving DecidableEq

/-- `FileMetadataModel` (src/letta/metadata.py:41-56); claim-irrelevant
columns (file name/path/type/size, date fields, created_at) omitted. -/
structure FileRow where
  id : String
  user_id : String
  source_id : String
  deriving DecidableEq

/-- The whole letta metadata database: one table per entity. -/
structure Store where
  agents : List AgentRow
  sources : List SourceRow
  mappings : List MappingRow
  blocks : List BlockRow
  tools : List ToolRow
  jobs : List JobRow
  tokens : List APIKeyRow
  files : List FileRow
  deriving DecidableEq

/-- `MetadataStore.create_agent` (src/letta/metadata.py:478-489): raises
(`Except.error`, session rolled back, store unchanged) when a row with the
same name and user_id already exists, otherwise inserts and commits. -/
def create_agent (s : Store) (agent : AgentRow) : Except StoreError Store :=
  if (s.agents.filter (fun r => r.name == agent.name && r.user_id == agent.user_id)).length > 0 then
    .error .alreadyExists
  else
    .ok { s with agents := s.agents ++ [agent] }

/-- `MetadataStore.create_source` (src/letta/metadata.py:491-497). -/
def create_source (s : Store) (source : SourceRow) : Except StoreError Store :=
  if (s.sources.filter (fun r => r.name == source.name && r.user_id == source.user_id)).length > 0 then
    .error .alreadyExists
  else
    .ok { s with sources := s.sources ++ [source] }

/-- `MetadataStore.create_block` (src/letta/metadata.py:499-517): the
duplicate check counts only rows with the template flag set, matching on
name, user_id and label. -/
def create_block (s : Store) (block : BlockRow) : Except StoreError Store :=
  if (s.blocks.filter (fun r =>
        r.name == block.name && r.user_id == block.user_id &&
        r.template == true && r.label == block.label)).length > 0 then
    .error .alreadyExists
  else
    .ok { s with blocks := s.blocks ++ [block] }

/-- `MetadataStore.delete_source` (src/letta/metadata.py:604-613): deletes
the source row and every mapping row referencing it, in one transaction. -/
def delete_source (s : Store) (source_id : String) : Store :=
  { s with
    sources := s.sources.filter (fun r => !(r.id == source_id)),
    mappings := s.mappings.filter (fun m => !(m.source_id == source_id)) }

/-- `MetadataStore.attach_source` (src/letta/metadata.py:746-752): inserts a
mapping row whose id is derived from the (user, agent, source) triple. -/
def attach_source (s : Store) (user_id agent_id source_id : String) : Store :=
  let mapping_id := user_id ++ "-" ++ agent_id ++ "-" ++ source_id
  { s with mappings := s.mappings ++ [⟨mapping_id, user_id, agent_id, source_id⟩] }

/-- `MetadataStore.get_source` (src/letta/metadata.py:660-673): lookup by id
when a truthy id is given, else by (name, user_id) — asserting both are
present; zero rows is `none`, more than one row fails the
`assert len(results) == 1` (modelled as `integrity`). -/
def get_source (s : Store) (source_id : Option String) (user_id : Option String)
    (source_name : Option String) : Except StoreError (Option SourceRow) :=
  let results : Except StoreError (List SourceRow) :=
    if optStrTruthy source_id then
      .ok (s.sources.filter (fun r => r.id == source_id.getD ""))
    else
      match user_id, source_name with
      | some uid, some n => .ok (s.sources.filter (fun r => r.name == n && r.user_id == uid))
      | _, _ => .error StoreError.integrity
  match results with
  | .error e => .error e
  | .ok rs => one_or_none rs

/-- `MetadataStore.list_attached_sources` (src/letta/metadata.py:754-767):
resolves each mapping row for the agent through `get_source`; a mapping row
whose source no longer exists is skipped with a warning, never raised. -/
def list_attached_sources (s : Store) (agent_id : String) :
    Except StoreError (List SourceRow) := do
  let results := s.mappings.filter (fun m => m.agent_id == agent_id)
  let resolved ← results.mapM (fun m => get_source s (some m.source_id) none none)
  return resolved.reduceOption

/-- `MetadataStore.list_tools` (src/letta/metadata.py:615-630): public tools
or the user's own, id strictly after the cursor when one is given, ascending
id order, capped at `limit`. -/
def list_tools (s : Store) (cursor : Option String) (limit : Nat)
    (user_id : Option String) : List ToolRow :=
  let query := s.tools.filter (fun t => t.user_id == none || t.user_id == user_id)
  let query := if optStrTruthy cursor then query.filter (fun t => strLtB (cursor.getD "") t.id) else query
  (sortByKey (fun t => t.id) query).take limit

/-- `MetadataStore.list_files_from_source` (src/letta/metadata.py:798-817):
files of one source, id strictly after the cursor when one is given,
ascending id order, capped at `limit`. -/
def list_files_from_source (s : Store) (source_id : String) (limit : Nat)
    (cursor : Option String) : List FileRow :=
  let query := s.files.filter (fun f => f.source_id == source_id)
  let query := if optStrTruthy cursor then query.filter (fun f => strLtB (cursor.getD "") f.id) else query
  (sortByKey (fun f => f.id) query).take limit

/-- `MetadataStore.get_tool` (src/letta/metadata.py:675-690): by truthy id,
or by name — global rows (`user_id IS NULL`) first, then, for a truthy
user_id, that user's rows, concatenated in that order.  The
`assert len(results) == 1` is commented out in this variant, so the first
row of the concatenation is returned; the only assertion left is that a name
was provided. -/
def get_tool (s : Store) (tool_name : Option String) (tool_id : Option String)
    (user_id : Option String) : Except StoreError (Option ToolRow) :=
  if optStrTruthy tool_id then
    match s.tools.filter (fun t => t.id == tool_id.getD "") with
    | [] => .ok none
    | x :: _ => .ok (some x)
  else
    match tool_name with
    | none => .error .integrity
    | some n =>
      let results := s.tools.filter (fun t => t.name == n && t.user_id == none) ++
        (if optStrTruthy user_id then
          s.tools.filter (fun t => t.name == n && t.user_id == user_id) else [])
      match results with
      | [] => .ok none
      | x :: _ => .ok (some x)

/-- `MetadataStore.update_job_status` (src/letta/metadata.py:843-848): one
UPDATE sets the status — and, through the `completed_at` column's
`onupdate=func.now()` clause (line 401), stamps `completed_at` with the
current time; for `JobStatus.COMPLETED` a second UPDATE in the same
transaction sets `completed_at` explicitly. -/
def update_job_status (s : Store) (job_id : String) (status : JobStatus)
    (now : Nat) : Store :=
  let jobs := s.jobs.map (fun j =>
    if j.id == job_id then { j with status := status, completed_at := some now } else j)
  let jobs := if status == JobStatus.COMPLETED then
      jobs.map (fun j => if j.id == job_id then { j with completed_at := some now } else j)
    else jobs
  { s with jobs := jobs }

/-- `MetadataStore.get_api_key` (src/letta/metadata.py:462-469): zero rows is
`none`, one row is returned, more than one fails the assertion. -/
def get_api_key (s : Store) (api_key : String) : Except StoreError (Option APIKeyRow) :=
  one_or_none (s.tokens.filter (fun t => t.key == api_key))

/-- `MetadataStore.create_api_key` (src/letta/metadata.py:440-453): the
freshly generated key (`new_api_key`, drawn outside the session) is checked
for global uniqueness against every stored token; a collision raises
(no retry); otherwise the row is inserted (`fresh_id` models the id the
`APIKey` schema generates) and the call returns `get_api_key` on the new
store.  The `assert user_id and name` guard is the truthiness check on the
two arguments. -/
def create_api_key (s : Store) (new_api_key : String) (user_id : String)
    (name : String) (fresh_id : String) :
    Except StoreError (Store × Option APIKeyRow) :=
  if (s.tokens.filter (fun t => t.key == new_api_key)).length > 0 then
    .error .alreadyExists
  else if user_id == "" || name == "" then
    .error .integrity
  else
    let s' := { s with tokens := s.tokens ++ [⟨fresh_id, user_id, new_api_key, name⟩] }
    match get_api_key s' new_api_key with
    | .error e => .error e
    | .ok r => .ok (s', r)

end Letta

/-- One lowercase hex digit (for a value below 16). -/
def hexChar (n : Nat) : Char := Nat.digitChar n

/-- Python `bytes.hex()`: each byte becomes exactly two lowercase hex
digits. -/
def bytesHex (bs : List Nat) : String :=
  String.mk ((bs.map (fun b => [hexChar (b / 16), hexChar (b % 16)])).flatten)

/-- The byte count requested from `secrets.token_bytes` by
`generate_api_key` (src/letta/metadata.py:196, src/memgpt/metadata.py:163):
`max(length - len(prefix), 1) // 2`.  Natural subtraction truncates at zero
exactly as Python's `max(…, 1)` clamps a negative difference.  `pfx` stands
for the Python parameter named after the key prefix (a Lean keyword). -/
def api_key_byte_count (pfx : String) (length : Nat) : Nat :=
  (max (length - pfx.length) 1) / 2

/-- `generate_api_key` (src/letta/metadata.py:194-199 and
src/memgpt/metadata.py:161-166): the randomness of `secrets.token_bytes` is
an explicit parameter; theorems assume `random_bytes` has exactly the size
the code requests (`api_key_byte_count`). -/
def generate_api_key (pfx : String) (random_bytes : List Nat) : String :=
  pfx ++ bytesHex random_bytes

namespace Memgpt

/-- `UserModel` (src/memgpt/metadata.py:114-133); the UUID primary key is an
opaque string here. -/
structure UserRow where
  id : String
  default_agent : Option String
  policies_accepted : Bool
  deriving DecidableEq

/-- `AgentModel` (src/memgpt/metadata.py:169-192); claim-irrelevant columns
omitted. -/
structure AgentRow where
  id : String
  user_id : String
  name : String
  deriving DecidableEq

/-- `SourceModel` (src/memgpt/metadata.py:214-228); claim-irrelevant columns
omitted. -/
structure SourceRow where
  id : String
  user_id : String
  name : String
  deriving DecidableEq

/-- `AgentSourceMappingModel` (src/memgpt/metadata.py:247-255). -/
structure MappingRow where
  id : String
  user_id : String
  agent_id : String
  source_id : String
  deriving DecidableEq

/-- `ToolModel` (from `memgpt/models/pydantic_models.py`, referenced by the
store); a NULL `user_id` marks a globally shared tool. -/
structure ToolRow where
  id : String
  name : String
  user_id : Option String
  deriving DecidableEq

/-- The memgpt (legacy-variant) metadata database restricted to the tables
the claims touch. -/
structure Store where
  users : List UserRow
  agents : List AgentRow
  sources : List SourceRow
  mappings : List MappingRow
  tools : List ToolRow
  deriving DecidableEq

/-- `MetadataStore.get_all_users` (src/memgpt/metadata.py:651-664): orders
users by descending id, keeps ids strictly below the cursor when one is
given (UUID cursors are always truthy), caps at `limit`, and returns the
last returned id as the next cursor (`None, []` when the page is empty). -/
def get_all_users (s : Store) (cursor : Option String) (limit : Nat) :
    Option String × List UserRow :=
  let query := sortByKeyDesc (fun u : UserRow => u.id) s.users
  let query := match cursor with
    | some c => query.filter (fun u : UserRow => strLtB u.id c)
    | none => query
  let results := query.take limit
  match results.getLast? with
  | none => (none, results)
  | some lastUser => (some lastUser.id, results)

/-- `MetadataStore.delete_user` (src/memgpt/metadata.py:582-597): one
transaction deletes the user row and every agent, source and agent-source
mapping row carrying that user id. -/
def delete_user (s : Store) (user_id : String) : Store :=
  { s with
    users := s.users.filter (fun u => !(u.id == user_id)),
    agents := s.agents.filter (fun a => !(a.user_id == user_id)),
    sources := s.sources.filter (fun r => !(r.user_id == user_id)),
    mappings := s.mappings.filter (fun m => !(m.user_id == user_id)) }

/-- `MetadataStore.get_tool` (src/memgpt/metadata.py:681-692): global rows
(`user_id IS NULL`) first, then — for a non-None user id (UUIDs are always
truthy) — that user's rows, concatenated in that order; here the
`assert len(results) == 1` is live, so an ambiguous result set aborts. -/
def get_tool (s : Store) (tool_name : String) (user_id : Option String) :
    Except StoreError (Option ToolRow) :=
  let results := s.tools.filter (fun t => t.name == tool_name && t.user_id == none) ++
    (match user_id with
     | some _ => s.tools.filter (fun t => t.name == tool_name && t.user_id == user_id)
     | none => [])
  one_or_none results

end Memgpt

/-- An empty letta database, used to build concrete test stores. -/
def emptyLettaStore : Letta.Store :=
  { agents := [], sources := [], mappings := [], blocks := [], tools := [],
    jobs := [], tokens := [], files := [] }

/-- An empty memgpt database, used to build concrete test stores. -/
def emptyMemgptStore : Memgpt.Store :=
  { users := [], agents := [], sources := [], mappings := [], tools := [] }

/-- Concrete store with three global tools, for evaluating pagination. -/
def demoToolStore : Letta.Store :=
  { emptyLettaStore with
    tools := [⟨"t1", "alpha", none⟩, ⟨"t2", "beta", none⟩, ⟨"t3", "gamma", none⟩] }

/-- Concrete store with one agent, one source and the mapping row created by
attaching the source to the agent. -/
def demoAttachStore : Letta.Store :=
  { emptyLettaStore with
    agents := [⟨"a1", "u1", "my-agent"⟩],
    sources := [⟨"s1", "u1", "my-source"⟩],
    mappings := [⟨"u1-a1-s1", "u1", "a1", "s1"⟩] }

/-- Concrete store holding a dangling mapping row: the mapping references
source `s1` but no such source row exists. -/
def demoDanglingStore : Letta.Store :=
  { emptyLettaStore with
    agents := [⟨"a1", "u1", "my-agent"⟩],
    mappings := [⟨"u1-a1-s1", "u1", "a1", "s1"⟩] }

/-- Concrete store with one pending job that has no completion time. -/
def demoJobStore : Letta.Store :=
  { emptyLettaStore with jobs := [⟨"j1", Letta.JobStatus.pending, none⟩] }

/-- Concrete store in which the name `search` exists both as a global tool
and as a private tool of user `u1`. -/
def demoDupToolStore : Letta.Store :=
  { emptyLettaStore with
    tools := [⟨"t-global", "search", none⟩, ⟨"t-priv", "search", some "u1"⟩] }

/-- The same global/private duplicate in the memgpt store. -/
def demoDupToolStoreM : Memgpt.Store :=
  { emptyMemgptStore with
    tools := [⟨"t-global", "search", none⟩, ⟨"t-priv", "search", some "u1"⟩] }

/-- Concrete memgpt store with two users. -/
def demoUserStore : Memgpt.Store :=
  { emptyMemgptStore with
    users := [⟨"u-a", none, false⟩, ⟨"u-b", none, false⟩] }

/-- The full ascending-id view of the tools visible to a user (global tools
plus the user's own): what `list_tools` paginates over. -/
def lettaSortedTools (s : Letta.Store) (u : Option String) : List Letta.ToolRow :=
  sortByKey (fun t => t.id) (s.tools.filter (fun t => t.user_id == none || t.user_id == u))

/-- The full ascending-id view of one source's files: what
`list_files_from_source` paginates over. -/
def lettaSortedFiles (s : Letta.Store) (sid : String) : List Letta.FileRow :=
  sortByKey (fun f => f.id) (s.files.filter (fun f => f.source_id == sid))

/-- The full descending-id view of the users: what `get_all_users` paginates
over. -/
def memgptSortedUsersDesc (ms : Memgpt.Store) : List Memgpt.UserRow :=
  sortByKeyDesc (fun x => x.id) ms.users

/-! ## Helper lemmas -/

theorem strLtB_iff {a b : String} : strLtB a b = true ↔ a < b := by
  rw [strLtB, decide_eq_true_eq, ← String.lt_iff_toList_lt]

theorem strLeB_iff {a b : String} : strLeB a b = true ↔ a ≤ b := by
  simp only [strLeB, strLtB, Bool.not_eq_true', decide_eq_false_iff_not,
    ← String.lt_iff_toList_lt, not_lt]

theorem one_or_none_of_two_le {α : Type} {l : List α} (h : 2 ≤ l.length) :
    one_or_none l = .error .integrity := by
  match l with
  | [] => simp at h
  | [_] => simp at h
  | _ :: _ :: _ => rfl

theorem sortByKey_perm {α : Type} (key : α → String) (l : List α) :
    (sortByKey key l).Perm l :=
  List.perm_insertionSort _ l

theorem sortByKeyDesc_perm {α : Type} (key : α → String) (l : List α) :
    (sortByKeyDesc key l).Perm l :=
  List.perm_insertionSort _ l

theorem sortByKey_sorted {α : Type} (key : α → String) (l : List α) :
    (sortByKey key l).Pairwise (fun a b => key a ≤ key b) := by
  haveI : IsTotal α (fun a b => strLeB (key a) (key b) = true) := ⟨fun a b => by
    rcases le_total (key a) (key b) with h | h
    · exact Or.inl (strLeB_iff.mpr h)
    · exact Or.inr (strLeB_iff.mpr h)⟩
  haveI : IsTrans α (fun a b => strLeB (key a) (key b) = true) := ⟨fun a b c hab hbc =>
    strLeB_iff.mpr (le_trans (strLeB_iff.mp hab) (strLeB_iff.mp hbc))⟩
  exact (List.sorted_insertionSort _ l).imp (fun hab => strLeB_iff.mp hab)

theorem sortByKeyDesc_sorted {α : Type} (key : α → String) (l : List α) :
    (sortByKeyDesc key l).Pairwise (fun a b => key b ≤ key a) := by
  haveI : IsTotal α (fun a b => strLeB (key b) (key a) = true) := ⟨fun a b => by
    rcases le_total (key b) (key a) with h | h
    · exact Or.inl (strLeB_iff.mpr h)
    · exact Or.inr (strLeB_iff.mpr h)⟩
  haveI : IsTrans α (fun a b => strLeB (key b) (key a) = true) := ⟨fun a b c hab hbc =>
    strLeB_iff.mpr (le_trans (strLeB_iff.mp hbc) (strLeB_iff.mp hab))⟩
  exact (List.sorted_insertionSort _ l).imp (fun hab => strLeB_iff.mp hab)

theorem pairwise_lt_of_le_nodup {α : Type} {key : α → String} {l : List α}
    (hs : l.Pairwise (fun a b => key a ≤ key b)) (hn : (l.map key).Nodup) :
    l.Pairwise (fun a b => key a < key b) := by
  have hne : l.Pairwise (fun a b => key a ≠ key b) := List.pairwise_map.mp hn
  exact (hs.and hne).imp (fun h => lt_of_le_of_ne h.1 h.2)

theorem pairwise_gt_of_ge_nodup {α : Type} {key : α → String} {l : List α}
    (hs : l.Pairwise (fun a b => key b ≤ key a)) (hn : (l.map key).Nodup) :
    l.Pairwise (fun a b => key b < key a) := by
  have hne : l.Pairwise (fun a b => key a ≠ key b) := List.pairwise_map.mp hn
  exact (hs.and hne).imp (fun h => lt_of_le_of_ne h.1 h.2.symm)

/-- In a list strictly sorted by an asymmetric comparison, the elements
comparing strictly after the element at index `i` are exactly the suffix
starting at `i + 1`. -/
theorem filter_suffix_of_pairwise {α : Type} (r : α → α → Bool)
    (hasym : ∀ a b, r a b = true → r b a = false) :
    ∀ (L : List α), L.Pairwise (fun a b => r a b = true) →
      ∀ (i : Nat) (h : i < L.length),
        L.filter (fun x => r (L.get ⟨i, h⟩) x) = L.drop (i + 1) := by
  intro L
  induction L with
  | nil => intro _ i h; simp at h
  | cons a tl ih =>
    intro hp i h
    rcases List.pairwise_cons.mp hp with ⟨ha, htl⟩
    cases i with
    | zero =>
      have haa : r a a = false := by
        cases hra : r a a with
        | false => rfl
        | true => have hfa := hasym a a hra; simp [hra] at hfa
      show List.filter (fun x => r a x) (a :: tl) = tl
      rw [List.filter_cons, haa]
      simp only [Bool.false_eq_true, if_false]
      exact List.filter_eq_self.mpr ha
    | succ j =>
      have hj : j < tl.length := by simpa using h
      have h1 : r a (tl.get ⟨j, hj⟩) = true := ha _ (tl.get_mem _ _)
      have h2 : r (tl.get ⟨j, hj⟩) a = false := hasym _ _ h1
      show List.filter (fun x => r (tl.get ⟨j, hj⟩) x) (a :: tl) = tl.drop (j + 1)
      rw [List.filter_cons, h2]
      simp only [Bool.false_eq_true, if_false]
      exact ih htl j hj

theorem sortByKey_filter_comm {α : Type} (key : α → String) (p : α → Bool)
    (l : List α) (hn : (l.map key).Nodup) :
    sortByKey key (l.filter p) = (sortByKey key l).filter p := by
  have hperm : (sortByKey key (l.filter p)).Perm ((sortByKey key l).filter p) :=
    (sortByKey_perm key (l.filter p)).trans
      (List.Perm.filter p (sortByKey_perm key l)).symm
  have hnsort : ((sortByKey key l).map key).Nodup :=
    (((sortByKey_perm key l).map key).nodup_iff).mpr hn
  have hnfilter : ((l.filter p).map key).Nodup :=
    hn.sublist ((l.filter_sublist).map key)
  have hnsf : ((sortByKey key (l.filter p)).map key).Nodup :=
    (((sortByKey_perm key (l.filter p)).map key).nodup_iff).mpr hnfilter
  have hs1 : (sortByKey key (l.filter p)).Pairwise (fun a b => key a < key b) :=
    pairwise_lt_of_le_nodup (sortByKey_sorted key (l.filter p)) hnsf
  have hs2 : ((sortByKey key l).filter p).Pairwise (fun a b => key a < key b) :=
    ((sortByKey_sorted key l).and (List.pairwise_map.mp hnsort)).sublist
      (List.filter_sublist _) |>.imp (fun h => lt_of_le_of_ne h.1 h.2)
  haveI : IsAntisymm α (fun a b => key a < key b) :=
    ⟨fun _ _ h1 h2 => absurd h2 (lt_asymm h1)⟩
  exact List.eq_of_perm_of_sorted hperm hs1 hs2

theorem sortByKeyDesc_filter_comm {α : Type} (key : α → String) (p : α → Bool)
    (l : List α) (hn : (l.map key).Nodup) :
    sortByKeyDesc key (l.filter p) = (sortByKeyDesc key l).filter p := by
  have hperm : (sortByKeyDesc key (l.filter p)).Perm ((sortByKeyDesc key l).filter p) :=
    (sortByKeyDesc_perm key (l.filter p)).trans
      (List.Perm.filter p (sortByKeyDesc_perm key l)).symm
  have hnsort : ((sortByKeyDesc key l).map key).Nodup :=
    (((sortByKeyDesc_perm key l).map key).nodup_iff).mpr hn
  have hnfilter : ((l.filter p).map key).Nodup :=
    hn.sublist ((l.filter_sublist).map key)
  have hnsf : ((sortByKeyDesc key (l.filter p)).map key).Nodup :=
    (((sortByKeyDesc_perm key (l.filter p)).map key).nodup_iff).mpr hnfilter
  have hs1 : (sortByKeyDesc key (l.filter p)).Pairwise (fun a b => key b < key a) :=
    pairwise_gt_of_ge_nodup (sortByKeyDesc_sorted key (l.filter p)) hnsf
  have hs2 : ((sortByKeyDesc key l).filter p).Pairwise (fun a b => key b < key a) :=
    ((sortByKeyDesc_sorted key l).and (List.pairwise_map.mp hnsort)).sublist
      (List.filter_sublist _) |>.imp (fun h => lt_of_le_of_ne h.1 h.2.symm)
  haveI : IsAntisymm α (fun a b => key b < key a) :=
    ⟨fun _ _ h1 h2 => absurd h2 (lt_asymm h1)⟩
  exact List.eq_of_perm_of_sorted hperm hs1 hs2

theorem decodeToolCallElem_model_dump (tc : Letta.ToolCall) :
    Letta.decodeToolCallElem tc.model_dump = .ok tc := by
  obtain ⟨i, t, fn⟩ := tc
  cases fn <;> rfl

theorem mapM_decodeToolCallElem_model_dump (ts : List Letta.ToolCall) :
    (ts.map Letta.ToolCall.model_dump).mapM Letta.decodeToolCallElem = .ok ts := by
  induction ts with
  | nil => rfl
  | cons a tl ih =>
    rw [List.map_cons, List.mapM_cons, decodeToolCallElem_model_dump, ih]
    rfl

/-- C1: for each codec (letta LLM-config, letta embedding-config, letta
tool-call-list, memgpt LLM-config), decoding the encoding of any valid
configuration object yields an equal object, decoding the encoding of the
empty value yields the empty value, and the empty value is encoded to the
empty column value, never to an empty mapping. -/
theorem C1_codec_round_trip :
    ∀ (c : Letta.LLMConfig) (e : Letta.EmbeddingConfig) (ts : List Letta.ToolCall)
      (m : Memgpt.LLMConfig),
      Letta.LLMConfigColumn.process_result_value
        (Letta.LLMConfigColumn.process_bind_param (some c)) = .ok (some (Sum.inl c)) ∧
      Letta.LLMConfigColumn.process_result_value
        (Letta.LLMConfigColumn.process_bind_param none) = .ok none ∧
      Letta.LLMConfigColumn.process_bind_param none = none ∧
      Letta.EmbeddingConfigColumn.process_result_value
        (Letta.EmbeddingConfigColumn.process_bind_param (some e)) = .ok (some (Sum.inl e)) ∧
      Letta.EmbeddingConfigColumn.process_result_value
        (Letta.EmbeddingConfigColumn.process_bind_param none) = .ok none ∧
      Letta.EmbeddingConfigColumn.process_bind_param none = none ∧
      Letta.ToolCallColumn.process_result_value
        (Letta.ToolCallColumn.process_bind_param (some ts)) = .ok (some (Sum.inl ts)) ∧
      Letta.ToolCallColumn.process_result_value
        (Letta.ToolCallColumn.process_bind_param none) = .ok none ∧
      Letta.ToolCallColumn.process_bind_param none = none ∧
      Memgpt.LLMConfigColumn.process_result_value
        (Memgpt.LLMConfigColumn.process_bind_param (some m)) = .ok (some (Sum.inl m)) ∧
      Memgpt.LLMConfigColumn.process_result_value
        (Memgpt.LLMConfigColumn.process_bind_param none) = .ok none ∧
      Memgpt.LLMConfigColumn.process_bind_param none = none := by
  intro c e ts m
  refine ⟨?_, rfl, rfl, ?_, rfl, rfl, ?_, rfl, rfl, ?_, rfl, rfl⟩
  · obtain ⟨cm, ct, cw⟩ := c; rfl
  · obtain ⟨em, et, ed⟩ := e; rfl
  · cases ts with
    | nil => rfl
    | cons a tl =>
      have h := mapM_decodeToolCallElem_model_dump (a :: tl)
      simp only [Letta.ToolCallColumn.process_bind_param,
        Letta.ToolCallColumn.process_result_value, List.map_cons, List.isEmpty_cons]
      rw [show (Letta.ToolCall.model_dump a :: tl.map Letta.ToolCall.model_dump).mapM
            Letta.decodeToolCallElem = .ok (a :: tl) from h]
      rfl
  · obtain ⟨mm, mw⟩ := m; rfl

theorem filter_append_singleton_pos {α : Type} {l : List α} {p : α → Bool} {a : α}
    (hpa : p a = true) : 0 < ((l ++ [a]).filter p).length := by
  rw [List.filter_append]
  simp [hpa]

/-- C2: creating a second Agent (or Source) with the same name under the
same user id fails with AlreadyExists — the error return models the raise
before any insert, so the store is unchanged — while creating two with the
same name under two different user ids succeeds for both (provided, as in
the spec scenario, the second name/user pair is not already taken in the
initial store). -/
theorem C2_create_name_unique_per_user :
    ∀ (s s1 : Letta.Store) (a1 a2 : Letta.AgentRow) (r1 r2 : Letta.SourceRow),
      (Letta.create_agent s a1 = .ok s1 → a2.name = a1.name → a2.user_id = a1.user_id →
        Letta.create_agent s1 a2 = .error .alreadyExists) ∧
      (Letta.create_agent s a1 = .ok s1 → ¬a2.user_id = a1.user_id →
        (s.agents.filter (fun r => r.name == a2.name && r.user_id == a2.user_id)).length = 0 →
        Letta.create_agent s1 a2 = .ok { s1 with agents := s1.agents ++ [a2] }) ∧
      (Letta.create_source s r1 = .ok s1 → r2.name = r1.name → r2.user_id = r1.user_id →
        Letta.create_source s1 r2 = .error .alreadyExists) ∧
      (Letta.create_source s r1 = .ok s1 → ¬r2.user_id = r1.user_id →
        (s.sources.filter (fun r => r.name == r2.name && r.user_id == r2.user_id)).length = 0 →
        Letta.create_source s1 r2 = .ok { s1 with sources := s1.sources ++ [r2] }) := by
  intro s s1 a1 a2 r1 r2
  refine ⟨?_, ?_, ?_, ?_⟩
  · intro h hname huser
    unfold Letta.create_agent at h
    split at h
    · exact Except.noConfusion h
    · injection h with h'
      subst h'
      have hpred : (a1.name == a2.name && a1.user_id == a2.user_id) = true := by
        simp [hname, huser]
      have hlen := filter_append_singleton_pos (l := s.agents)
        (p := fun r => r.name == a2.name && r.user_id == a2.user_id) hpred
      unfold Letta.create_agent
      rw [if_pos hlen]
  · intro h huser hfree
    unfold Letta.create_agent at h
    split at h
    · exact Except.noConfusion h
    · injection h with h'
      subst h'
      have hpred : (a1.name == a2.name && a1.user_id == a2.user_id) = false := by
        have : ¬a1.user_id = a2.user_id := fun hh => huser hh.symm
        simp [this]
      unfold Letta.create_agent
      rw [if_neg]
      rw [List.filter_append, List.filter_cons, hpred]
      simp [hfree]
  · intro h hname huser
    unfold Letta.create_source at h
    split at h
    · exact Except.noConfusion h
    · injection h with h'
      subst h'
      have hpred : (r1.name == r2.name && r1.user_id == r2.user_id) = true := by
        simp [hname, huser]
      have hlen := filter_append_singleton_pos (l := s.sources)
        (p := fun r => r.name == r2.name && r.user_id == r2.user_id) hpred
      unfold Letta.create_source
      rw [if_pos hlen]
  · intro h huser hfree
    unfold Letta.create_source at h
    split at h
    · exact Except.noConfusion h
    · injection h with h'
      subst h'
      have hpred : (r1.name == r2.name && r1.user_id == r2.user_id) = false := by
        have : ¬r1.user_id = r2.user_id := fun hh => huser hh.symm
        simp [this]
      unfold Letta.create_source
      rw [if_neg]
      rw [List.filter_append, List.filter_cons, hpred]
      simp [hfree]

/-- Witness for C2 at a concrete store: one agent (and one source) named
`bob` under user `u1`; the same name fails for `u1` and succeeds for `u2`. -/
theorem C2_create_name_unique_per_user_witness :
    Letta.create_agent { emptyLettaStore with agents := [⟨"a1", "u1", "bob"⟩] }
        ⟨"a2", "u1", "bob"⟩ = .error .alreadyExists ∧
    Letta.create_agent { emptyLettaStore with agents := [⟨"a1", "u1", "bob"⟩] }
        ⟨"a2", "u2", "bob"⟩ =
      .ok { emptyLettaStore with agents := [⟨"a1", "u1", "bob"⟩, ⟨"a2", "u2", "bob"⟩] } ∧
    Letta.create_source { emptyLettaStore with sources := [⟨"s1", "u1", "bob"⟩] }
        ⟨"s2", "u1", "bob"⟩ = .error .alreadyExists ∧
    Letta.create_source { emptyLettaStore with sources := [⟨"s1", "u1", "bob"⟩] }
        ⟨"s2", "u2", "bob"⟩ =
      .ok { emptyLettaStore with sources := [⟨"s1", "u1", "bob"⟩, ⟨"s2", "u2", "bob"⟩] } := by
  have h := C2_create_name_unique_per_user emptyLettaStore
    { emptyLettaStore with agents := [⟨"a1", "u1", "bob"⟩] }
    ⟨"a1", "u1", "bob"⟩ ⟨"a2", "u1", "bob"⟩ ⟨"s1", "u1", "bob"⟩ ⟨"s2", "u1", "bob"⟩
  have h2 := C2_create_name_unique_per_user emptyLettaStore
    { emptyLettaStore with agents := [⟨"a1", "u1", "bob"⟩] }
    ⟨"a1", "u1", "bob"⟩ ⟨"a2", "u2", "bob"⟩ ⟨"s1", "u1", "bob"⟩ ⟨"s2", "u2", "bob"⟩
  have h3 := C2_create_name_unique_per_user emptyLettaStore
    { emptyLettaStore with sources := [⟨"s1", "u1", "bob"⟩] }
    ⟨"a1", "u1", "bob"⟩ ⟨"a2", "u1", "bob"⟩ ⟨"s1", "u1", "bob"⟩ ⟨"s2", "u1", "bob"⟩
  have h4 := C2_create_name_unique_per_user emptyLettaStore
    { emptyLettaStore with sources := [⟨"s1", "u1", "bob"⟩] }
    ⟨"a1", "u1", "bob"⟩ ⟨"a2", "u1", "bob"⟩ ⟨"s1", "u1", "bob"⟩ ⟨"s2", "u2", "bob"⟩
  refine ⟨h.1 rfl rfl rfl, ?_, h3.2.2.1 rfl rfl rfl, ?_⟩
  · have hx := h2.2.1 rfl (by decide) (by decide)
    exact hx.trans (by rfl)
  · have hx := h4.2.2.2 rfl (by decide) (by decide)
    exact hx.trans (by rfl)

theorem get_all_users_snd (ms : Memgpt.Store) (c : Option String) (k : Nat) :
    (Memgpt.get_all_users ms c k).2 =
      (match c with
       | some cc => (memgptSortedUsersDesc ms).filter (fun x : Memgpt.UserRow => strLtB x.id cc)
       | none => memgptSortedUsersDesc ms).take k := by
  unfold Memgpt.get_all_users memgptSortedUsersDesc
  cases c with
  | none =>
    dsimp only
    cases h : ((sortByKeyDesc (fun x : Memgpt.UserRow => x.id) ms.users).take k).getLast? <;>
      rfl
  | some cc =>
    dsimp only
    cases h : (((sortByKeyDesc (fun x : Memgpt.UserRow => x.id) ms.users).filter
        (fun x : Memgpt.UserRow => strLtB x.id cc)).take k).getLast? <;> rfl

theorem get_all_users_fst (ms : Memgpt.Store) (c : Option String) (k : Nat) :
    (Memgpt.get_all_users ms c k).1 =
      ((Memgpt.get_all_users ms c k).2.getLast?).map (fun x => x.id) := by
  unfold Memgpt.get_all_users
  cases c with
  | none =>
    dsimp only
    cases h : ((sortByKeyDesc (fun x : Memgpt.UserRow => x.id) ms.users).take k).getLast? <;>
      simp [h]
  | some cc =>
    dsimp only
    cases h : (((sortByKeyDesc (fun x : Memgpt.UserRow => x.id) ms.users).filter
        (fun x : Memgpt.UserRow => strLtB x.id cc)).take k).getLast? <;> simp [h]

/-- C3 counterexample: `get_all_users` (src/memgpt/metadata.py:651-664) is a
list operation taking (cursor, limit), yet with users `u-a`, `u-b` and cursor
`u-b` the returned page contains id `u-a`, which is NOT strictly greater
than the cursor, and with no cursor the page is `[u-b, u-a]`, which is not
in ascending id order — refuting the claim for this operation. -/
theorem C3_counterexample_get_all_users_descending :
    (Memgpt.get_all_users demoUserStore (some "u-b") 50).2.map (fun x => x.id) = ["u-a"] ∧
    ¬("u-b" < "u-a") ∧
    (Memgpt.get_all_users demoUserStore none 50).2.map (fun x => x.id) = ["u-b", "u-a"] ∧
    ¬("u-b" ≤ "u-a") := by
  refine ⟨by decide, ?_, by decide, ?_⟩
  · rw [String.lt_iff_toList_lt]; decide
  · rw [String.le_iff_toList_le]; decide

theorem lettaSortedTools_subset_tools (s : Letta.Store) (u : Option String) :
    ∀ x ∈ lettaSortedTools s u, x ∈ s.tools := by
  intro x hx
  unfold lettaSortedTools at hx
  exact List.mem_of_mem_filter ((sortByKey_perm _ _).subset hx)

theorem lettaSortedFiles_subset_files (s : Letta.Store) (sid : String) :
    ∀ x ∈ lettaSortedFiles s sid, x ∈ s.files := by
  intro x hx
  unfold lettaSortedFiles at hx
  exact List.mem_of_mem_filter ((sortByKey_perm _ _).subset hx)

theorem strLtB_asym {a b : String} (h : strLtB a b = true) : strLtB b a = false := by
  have hnlt : ¬(b < a) := lt_asymm (strLtB_iff.mp h)
  cases hba : strLtB b a
  · rfl
  · exact absurd (strLtB_iff.mp hba) hnlt

/-- C3 (amended): letta's `list_tools` and `list_files_from_source` return
exactly the in-scope records with id strictly greater than the cursor, in
ascending id order, capped at `limit` (an empty cursor starting from the
first id); successive pages chained on the previous page's last id cover
the sorted view with no overlap and no gap, and a cursor at or past the
last id yields an empty page.  memgpt's `get_all_users`, however, pages in
DESCENDING id order over ids strictly LESS than the cursor, returning the
last returned id as the next cursor. -/
theorem C3_keyset_pagination
    (s : Letta.Store) (ms : Memgpt.Store) (u : Option String) (sid : String) (k : Nat)
    (htn : (s.tools.map (fun t => t.id)).Nodup)
    (hti : ∀ t ∈ s.tools, ¬t.id = "")
    (hfn : (s.files.map (fun f => f.id)).Nodup)
    (hfi : ∀ f ∈ s.files, ¬f.id = "")
    (hun : (ms.users.map (fun x => x.id)).Nodup) :
    (lettaSortedTools s u).Pairwise (fun a b => a.id < b.id) ∧
    Letta.list_tools s none k u = (lettaSortedTools s u).take k ∧
    (∀ c : String, ¬c = "" →
      Letta.list_tools s (some c) k u =
        ((lettaSortedTools s u).filter (fun t => strLtB c t.id)).take k) ∧
    (∀ (i : Nat) (h : i < (lettaSortedTools s u).length),
      Letta.list_tools s (some (((lettaSortedTools s u).get ⟨i, h⟩).id)) k u =
        ((lettaSortedTools s u).drop (i + 1)).take k) ∧
    (∀ c : String, ¬c = "" → (∀ t ∈ s.tools, t.id ≤ c) →
      Letta.list_tools s (some c) k u = []) ∧
    Letta.list_files_from_source s sid k none = (lettaSortedFiles s sid).take k ∧
    (∀ c : String, ¬c = "" →
      Letta.list_files_from_source s sid k (some c) =
        ((lettaSortedFiles s sid).filter (fun f => strLtB c f.id)).take k) ∧
    (∀ (i : Nat) (h : i < (lettaSortedFiles s sid).length),
      Letta.list_files_from_source s sid k
          (some (((lettaSortedFiles s sid).get ⟨i, h⟩).id)) =
        ((lettaSortedFiles s sid).drop (i + 1)).take k) ∧
    (Memgpt.get_all_users ms none k).2 = (memgptSortedUsersDesc ms).take k ∧
    (∀ c : String,
      (Memgpt.get_all_users ms (some c) k).2 =
        ((memgptSortedUsersDesc ms).filter (fun x => strLtB x.id c)).take k) ∧
    (∀ (i : Nat) (h : i < (memgptSortedUsersDesc ms).length),
      (Memgpt.get_all_users ms (some (((memgptSortedUsersDesc ms).get ⟨i, h⟩).id)) k).2 =
        ((memgptSortedUsersDesc ms).drop (i + 1)).take k) ∧
    (∀ c : Option String,
      (Memgpt.get_all_users ms c k).1 =
        ((Memgpt.get_all_users ms c k).2.getLast?).map (fun x => x.id)) := by
  have hsn : ((s.tools.filter (fun t => t.user_id == none || t.user_id == u)).map
      (fun t : Letta.ToolRow => t.id)).Nodup :=
    List.Nodup.sublist ((List.filter_sublist _).map _) htn
  have hTn : ((lettaSortedTools s u).map (fun t : Letta.ToolRow => t.id)).Nodup := by
    unfold lettaSortedTools
    exact ((sortByKey_perm _ _).map _).nodup_iff.mpr hsn
  have hT0 : (lettaSortedTools s u).Pairwise (fun a b => a.id < b.id) := by
    have hsort : (lettaSortedTools s u).Pairwise (fun a b => a.id ≤ b.id) := by
      unfold lettaSortedTools
      exact sortByKey_sorted _ _
    exact pairwise_lt_of_le_nodup hsort hTn
  have ht1 : Letta.list_tools s none k u = (lettaSortedTools s u).take k := rfl
  have ht2 : ∀ c : String, ¬c = "" →
      Letta.list_tools s (some c) k u =
        ((lettaSortedTools s u).filter (fun t => strLtB c t.id)).take k := by
    intro c hc
    have hcb : (c == "") = false := beq_eq_false_iff_ne.mpr hc
    simp only [Letta.list_tools, lettaSortedTools, optStrTruthy, hcb, Bool.not_false,
      if_true, Option.getD_some]
    rw [sortByKey_filter_comm _ _ _ hsn]
  have ht3 : ∀ (i : Nat) (h : i < (lettaSortedTools s u).length),
      Letta.list_tools s (some (((lettaSortedTools s u).get ⟨i, h⟩).id)) k u =
        ((lettaSortedTools s u).drop (i + 1)).take k := by
    intro i h
    have hc := hti _ (lettaSortedTools_subset_tools s u _
      (List.get_mem (lettaSortedTools s u) i h))
    have hpair : (lettaSortedTools s u).Pairwise
        (fun a b => (fun a b : Letta.ToolRow => strLtB a.id b.id) a b = true) :=
      hT0.imp (fun hlt => strLtB_iff.mpr hlt)
    have hsuffix := filter_suffix_of_pairwise
      (fun a b : Letta.ToolRow => strLtB a.id b.id)
      (fun _ _ hab => strLtB_asym hab) (lettaSortedTools s u) hpair i h
    rw [ht2 _ hc, hsuffix]
  have ht4 : ∀ c : String, ¬c = "" → (∀ t ∈ s.tools, t.id ≤ c) →
      Letta.list_tools s (some c) k u = [] := by
    intro c hc hle
    rw [ht2 c hc]
    have hnil : (lettaSortedTools s u).filter (fun t => strLtB c t.id) = [] := by
      rw [List.filter_eq_nil_iff]
      intro t ht
      have hmem := lettaSortedTools_subset_tools s u t ht
      cases hb : strLtB c t.id
      · simp
      · exact absurd (strLtB_iff.mp hb) (not_lt.mpr (hle t hmem))
    rw [hnil, List.take_nil]
  have hsnf : ((s.files.filter (fun f => f.source_id == sid)).map
      (fun f : Letta.FileRow => f.id)).Nodup :=
    List.Nodup.sublist ((List.filter_sublist _).map _) hfn
  have hf1 : Letta.list_files_from_source s sid k none = (lettaSortedFiles s sid).take k := rfl
  have hf2 : ∀ c : String, ¬c = "" →
      Letta.list_files_from_source s sid k (some c) =
        ((lettaSortedFiles s sid).filter (fun f => strLtB c f.id)).take k := by
    intro c hc
    have hcb : (c == "") = false := beq_eq_false_iff_ne.mpr hc
    simp only [Letta.list_files_from_source, lettaSortedFiles, optStrTruthy, hcb,
      Bool.not_false, if_true, Option.getD_some]
    rw [sortByKey_filter_comm _ _ _ hsnf]
  have hf3 : ∀ (i : Nat) (h : i < (lettaSortedFiles s sid).length),
      Letta.list_files_from_source s sid k
          (some (((lettaSortedFiles s sid).get ⟨i, h⟩).id)) =
        ((lettaSortedFiles s sid).drop (i + 1)).take k := by
    intro i h
    have hFn : ((lettaSortedFiles s sid).map (fun f : Letta.FileRow => f.id)).Nodup := by
      unfold lettaSortedFiles
      exact ((sortByKey_perm _ _).map _).nodup_iff.mpr hsnf
    have hF0 : (lettaSortedFiles s sid).Pairwise (fun a b => a.id < b.id) := by
      have hsort : (lettaSortedFiles s sid).Pairwise (fun a b => a.id ≤ b.id) := by
        unfold lettaSortedFiles
        exact sortByKey_sorted _ _
      exact pairwise_lt_of_le_nodup hsort hFn
    have hc := hfi _ (lettaSortedFiles_subset_files s sid _
      (List.get_mem (lettaSortedFiles s sid) i h))
    have hpair : (lettaSortedFiles s sid).Pairwise
        (fun a b => (fun a b : Letta.FileRow => strLtB a.id b.id) a b = true) :=
      hF0.imp (fun hlt => strLtB_iff.mpr hlt)
    have hsuffix := filter_suffix_of_pairwise
      (fun a b : Letta.FileRow => strLtB a.id b.id)
      (fun _ _ hab => strLtB_asym hab) (lettaSortedFiles s sid) hpair i h
    rw [hf2 _ hc, hsuffix]
  have hu1 : (Memgpt.get_all_users ms none k).2 = (memgptSortedUsersDesc ms).take k :=
    get_all_users_snd ms none k
  have hu2 : ∀ c : String,
      (Memgpt.get_all_users ms (some c) k).2 =
        ((memgptSortedUsersDesc ms).filter (fun x => strLtB x.id c)).take k :=
    fun c => get_all_users_snd ms (some c) k
  have hu3 : ∀ (i : Nat) (h : i < (memgptSortedUsersDesc ms).length),
      (Memgpt.get_all_users ms (some (((memgptSortedUsersDesc ms).get ⟨i, h⟩).id)) k).2 =
        ((memgptSortedUsersDesc ms).drop (i + 1)).take k := by
    intro i h
    have hDn : ((memgptSortedUsersDesc ms).map (fun x : Memgpt.UserRow => x.id)).Nodup := by
      unfold memgptSortedUsersDesc
      exact ((sortByKeyDesc_perm _ _).map _).nodup_iff.mpr hun
    have hD0 : (memgptSortedUsersDesc ms).Pairwise (fun a b => b.id < a.id) := by
      have hsort : (memgptSortedUsersDesc ms).Pairwise (fun a b => b.id ≤ a.id) := by
        unfold memgptSortedUsersDesc
        exact sortByKeyDesc_sorted _ _
      exact pairwise_gt_of_ge_nodup hsort hDn
    have hpair : (memgptSortedUsersDesc ms).Pairwise
        (fun a b => (fun a b : Memgpt.UserRow => strLtB b.id a.id) a b = true) :=
      hD0.imp (fun hlt => strLtB_iff.mpr hlt)
    have hsuffix := filter_suffix_of_pairwise
      (fun a b : Memgpt.UserRow => strLtB b.id a.id)
      (fun _ _ hab => strLtB_asym hab) (memgptSortedUsersDesc ms) hpair i h
    rw [hu2 _, hsuffix]
  exact ⟨hT0, ht1, ht2, ht3, ht4, hf1, hf2, hf3, hu1, hu2, hu3,
    fun c => get_all_users_fst ms c k⟩

/-- Witness for C3 at concrete stores: three tools paginate in ascending id
order two at a time with no overlap, and two users paginate descending with
the last id as next cursor. -/
theorem C3_keyset_pagination_witness :
    Letta.list_tools demoToolStore none 2 none =
      [⟨"t1", "alpha", none⟩, ⟨"t2", "beta", none⟩] ∧
    Letta.list_tools demoToolStore (some "t2") 2 none = [⟨"t3", "gamma", none⟩] ∧
    Memgpt.get_all_users demoUserStore none 2 =
      (some "u-a", [⟨"u-b", none, false⟩, ⟨"u-a", none, false⟩]) := by
  have h := C3_keyset_pagination demoToolStore demoUserStore none "s1" 2
    (by decide) (by decide) (by decide) (by decide) (by decide)
  obtain ⟨t0, t1, t2, t3, t4, f1, f2, f3, u1, u2, u3, u4⟩ := h
  refine ⟨t1.trans (by decide), ?_, ?_⟩
  · have hx := t3 1 (by decide)
    exact hx.trans (by decide)
  · have h1 : (Memgpt.get_all_users demoUserStore none 2).1 = some "u-a" := by
      rw [u4 none, u1]; decide
    have h2 : (Memgpt.get_all_users demoUserStore none 2).2 =
        [⟨"u-b", none, false⟩, ⟨"u-a", none, false⟩] := u1.trans (by decide)
    exact Prod.ext h1 h2

theorem mapM_ok_none_reduceOption {α β : Type} (f : α → Except StoreError (Option β)) :
    ∀ (l : List α), (∀ x ∈ l, f x = .ok none) →
      ∃ r, l.mapM f = .ok r ∧ r.reduceOption = [] := by
  intro l
  induction l with
  | nil => exact fun _ => ⟨[], rfl, rfl⟩
  | cons a tl ih =>
    intro hall
    obtain ⟨r, hr, hro⟩ := ih (fun x hx => hall x (List.mem_cons_of_mem a hx))
    refine ⟨none :: r, ?_, ?_⟩
    · rw [List.mapM_cons, hall a (List.mem_cons_self a tl), hr]
      rfl
    · rw [List.reduceOption_cons_of_none, hro]

/-- C4 counterexample: with an agent, a source and the mapping row from
attaching them, deleting the source directly via `delete_source` does NOT
leave the agent-source mapping row in place — the mapping table is emptied
in the same transaction (src/letta/metadata.py:604-613). -/
theorem C4_counterexample_delete_source_removes_mapping :
    demoAttachStore.mappings = [⟨"u1-a1-s1", "u1", "a1", "s1"⟩] ∧
    (Letta.delete_source demoAttachStore "s1").mappings = [] := by
  exact ⟨rfl, by decide⟩

/-- C4 (amended): deleting a Source via `delete_source` deletes both the
source row and every mapping row referencing it in the same transaction (so
no mapping row is left in place by this path); independently, in any store
state where an agent's mapping rows reference sources that no longer exist,
`list_attached_sources(agent)` returns zero items — each dangling entry is
filtered out with a diagnostic, never raised as an error. -/
theorem C4_orphan_tolerance :
    ∀ (s : Letta.Store) (sid aid : String),
      (Letta.delete_source s sid).sources = s.sources.filter (fun r => !(r.id == sid)) ∧
      (Letta.delete_source s sid).mappings =
        s.mappings.filter (fun m => !(m.source_id == sid)) ∧
      ((∀ m ∈ s.mappings, ¬m.source_id = "") →
       (∀ m ∈ s.mappings, m.agent_id = aid →
          s.sources.filter (fun r => r.id == m.source_id) = []) →
       Letta.list_attached_sources s aid = .ok []) := by
  intro s sid aid
  refine ⟨rfl, rfl, ?_⟩
  intro hids hdangling
  have hall : ∀ m ∈ s.mappings.filter (fun m => m.agent_id == aid),
      Letta.get_source s (some m.source_id) none none = .ok none := by
    intro m hm
    have hm' : m ∈ s.mappings := List.mem_of_mem_filter hm
    have haid : m.agent_id = aid := by
      have hb := List.of_mem_filter hm
      exact beq_iff_eq.mp hb
    have hcb : (m.source_id == "") = false := beq_eq_false_iff_ne.mpr (hids m hm')
    simp [Letta.get_source, optStrTruthy, hcb, hdangling m hm' haid, one_or_none]
  obtain ⟨r, hr, hro⟩ := mapM_ok_none_reduceOption
    (fun m => Letta.get_source s (some m.source_id) none none)
    (s.mappings.filter (fun m => m.agent_id == aid)) hall
  unfold Letta.list_attached_sources
  dsimp only
  rw [hr]
  exact congrArg Except.ok hro

/-- Witness for C4 at concrete stores: the attach-then-delete scenario, and
a store with a dangling mapping whose agent lists zero attached sources. -/
theorem C4_orphan_tolerance_witness :
    (Letta.delete_source demoAttachStore "s1").mappings = [] ∧
    Letta.list_attached_sources demoDanglingStore "a1" = .ok [] := by
  have h := C4_orphan_tolerance demoAttachStore "s1" "a1"
  have h2 := C4_orphan_tolerance demoDanglingStore "s1" "a1"
  exact ⟨h.2.1.trans (by decide), h2.2.2 (by decide) (by decide)⟩

/-- C5 counterexample: updating the job `j1` (pending, completion time
unset) to the non-terminal status `running` sets its completed-at time to
the current clock value — the `completed_at` column's `onupdate=func.now()`
clause (src/letta/metadata.py:401) fires on the status UPDATE — so a
non-terminal transition does NOT leave the completion time unset. -/
theorem C5_counterexample_nonterminal_sets_completed_at :
    demoJobStore.jobs = [⟨"j1", Letta.JobStatus.pending, none⟩] ∧
    (Letta.update_job_status demoJobStore "j1" Letta.JobStatus.running 42).jobs =
      [⟨"j1", Letta.JobStatus.running, some 42⟩] ∧
    (some 42 : Option Nat) ≠ none := by
  exact ⟨rfl, by decide, by decide⟩

/-- C5 (amended): `update_job_status(id, status)` sets the matched job's
status and — because the `completed_at` column carries
`onupdate=func.now()` — stamps its completed-at time with the current time
for EVERY status, terminal or not; the terminal-success status additionally
overwrites it explicitly in the same transaction (same clock value).  Rows
with other ids are untouched. -/
theorem C5_job_status_update (s : Letta.Store) (job_id : String)
    (status : Letta.JobStatus) (now : Nat) :
    (Letta.update_job_status s job_id status now).jobs =
      s.jobs.map (fun j => if j.id == job_id then
        { j with status := status, completed_at := some now } else j) := by
  unfold Letta.update_job_status
  dsimp only
  split
  · rw [List.map_map]
    apply List.map_congr_left
    intro j _
    cases hji : j.id == job_id
    · simp [Function.comp, hji]
    · simp [Function.comp, hji]
  · rfl

/-- C6: `create_api_key` checks the freshly generated token for global
uniqueness against every stored credential of every user before persisting;
on a collision the whole call fails with AlreadyExists (the raise happens
before the insert and the function performs no retry — its result is the
error, not a new attempt), and otherwise the row is inserted and the stored
record is returned. -/
theorem C6_create_api_key :
    ∀ (s : Letta.Store) (k uid nm fid : String),
      ((∃ t ∈ s.tokens, t.key = k) →
        Letta.create_api_key s k uid nm fid = .error .alreadyExists) ∧
      ((s.tokens.filter (fun t => t.key == k)).length = 0 → ¬uid = "" → ¬nm = "" →
        Letta.create_api_key s k uid nm fid =
          .ok ({ s with tokens := s.tokens ++ [⟨fid, uid, k, nm⟩] },
               some ⟨fid, uid, k, nm⟩)) := by
  intro s k uid nm fid
  constructor
  · rintro ⟨t, ht, hkey⟩
    have hmem : t ∈ s.tokens.filter (fun t2 => t2.key == k) :=
      List.mem_filter.mpr ⟨ht, by simp [hkey]⟩
    have hpos : 0 < (s.tokens.filter (fun t2 => t2.key == k)).length :=
      List.length_pos.mpr (List.ne_nil_of_mem hmem)
    unfold Letta.create_api_key
    rw [if_pos hpos]
  · intro hlen huid hnm
    have hfe : s.tokens.filter (fun t2 => t2.key == k) = [] := List.length_eq_zero.mp hlen
    have hcond2 : (uid == "" || nm == "") = false := by
      simp [beq_eq_false_iff_ne.mpr huid, beq_eq_false_iff_ne.mpr hnm]
    unfold Letta.create_api_key
    rw [if_neg (by simp [hlen])]
    simp only [hcond2, Bool.false_eq_true, if_false]
    simp [Letta.get_api_key, List.filter_append, hfe, one_or_none]

/-- Witness for C6: a pre-inserted token forces the collision failure; a
fresh token is persisted and returned. -/
theorem C6_create_api_key_witness :
    Letta.create_api_key { emptyLettaStore with tokens := [⟨"id0", "u0", "sk-abc", "old"⟩] }
        "sk-abc" "u1" "label" "id1" = .error .alreadyExists ∧
    Letta.create_api_key emptyLettaStore "sk-xyz" "u1" "label" "id1" =
      .ok ({ emptyLettaStore with tokens := [⟨"id1", "u1", "sk-xyz", "label"⟩] },
           some ⟨"id1", "u1", "sk-xyz", "label"⟩) := by
  have h1 := C6_create_api_key
    { emptyLettaStore with tokens := [⟨"id0", "u0", "sk-abc", "old"⟩] }
    "sk-abc" "u1" "label" "id1"
  have h2 := C6_create_api_key emptyLettaStore "sk-xyz" "u1" "label" "id1"
  refine ⟨h1.1 ⟨⟨"id0", "u0", "sk-abc", "old"⟩, by decide, rfl⟩, ?_⟩
  have hx := h2.2 (by decide) (by decide) (by decide)
  exact hx.trans (by rfl)

theorem bytesHex_length (bs : List Nat) : (bytesHex bs).length = 2 * bs.length := by
  show ((bs.map (fun b => [hexChar (b / 16), hexChar (b % 16)])).flatten).length = 2 * bs.length
  induction bs with
  | nil => rfl
  | cons b tl ih =>
    simp only [List.map_cons, List.flatten_cons, List.length_append, ih, List.length_cons,
      List.length_nil]
    omega

/-- C7 counterexample: with prefix `sk-` and requested total length 52 the
code draws `max(52 - 3, 1) // 2 = 24` random bytes and returns a
51-character token, not the requested 52 — the "exactly the requested total
length for every prefix and length" conjunct is false. -/
theorem C7_counterexample_odd_length :
    (List.replicate 24 (0 : Nat)).length = api_key_byte_count "sk-" 52 ∧
    (generate_api_key "sk-" (List.replicate 24 0)).length = 51 ∧
    (51 : Nat) ≠ 52 := by
  refine ⟨by decide, by decide, by decide⟩

/-- C7 (amended): `generate` returns the fixed prefix followed by the hex
encoding of the drawn bytes, and the token's total length is
`len(prefix) + 2 * (max(length - len(prefix), 1) // 2)`; this equals the
requested total length exactly when `length - len(prefix)` is even and
positive, and falls short otherwise (one character short for an odd
difference; bare prefix when `length ≤ len(prefix) + 1`). -/
theorem C7_generate_api_key_length :
    ∀ (pfx : String) (length : Nat) (bs : List Nat),
      bs.length = api_key_byte_count pfx length →
      generate_api_key pfx bs = pfx ++ bytesHex bs ∧
      (generate_api_key pfx bs).length = pfx.length + 2 * api_key_byte_count pfx length ∧
      (∀ d : Nat, length - pfx.length = 2 * d + 2 →
        (generate_api_key pfx bs).length = length) := by
  intro pfx length bs hbs
  have hlen : (generate_api_key pfx bs).length =
      pfx.length + 2 * api_key_byte_count pfx length := by
    show (pfx ++ bytesHex bs).length = _
    rw [String.length_append, bytesHex_length, hbs]
  refine ⟨rfl, hlen, ?_⟩
  intro d hd
  rw [hlen]
  unfold api_key_byte_count
  rw [hd]
  have hmax : max (2 * d + 2) 1 = 2 * d + 2 := by omega
  rw [hmax]
  have hdiv : (2 * d + 2) / 2 = d + 1 := by omega
  rw [hdiv]
  omega

/-- Witness for C7: the default call shape (`sk-`, 51) yields a 51-character
token from 24 drawn bytes. -/
theorem C7_generate_api_key_length_witness :
    (List.replicate 24 (0 : Nat)).length = api_key_byte_count "sk-" 51 ∧
    (generate_api_key "sk-" (List.replicate 24 0)).length = 51 := by
  have h := C7_generate_api_key_length "sk-" 51 (List.replicate 24 0) (by decide)
  exact ⟨by decide, h.2.2 23 (by decide)⟩

/-- C8 counterexample: with the name `search` existing both globally and as
a private tool of user `u1`, letta's `get_tool` does NOT abort as the
integrity-violation case — its `assert len(results) == 1` is commented out
(src/letta/metadata.py:689) — and instead returns the first row of the
concatenation (the global one). -/
theorem C8_counterexample_get_tool_returns_first :
    Letta.get_tool demoDupToolStore (some "search") none (some "u1") =
      .ok (some ⟨"t-global", "search", none⟩) ∧
    Letta.get_tool demoDupToolStore (some "search") none (some "u1") ≠
      .error .integrity := by
  refine ⟨rfl, fun h => ?_⟩
  rw [show Letta.get_tool demoDupToolStore (some "search") none (some "u1") =
      .ok (some ⟨"t-global", "search", none⟩) from rfl] at h
  exact Except.noConfusion h

/-- C8 (amended): tool lookup by name searches global tools first, then the
calling user's private tools, concatenated in that order, in both store
variants; when the name exists both globally and privately the memgpt
variant's single-record lookup aborts with the integrity violation, but the
letta variant has that assertion disabled and returns the first row of the
concatenation — the global one — instead of aborting. -/
theorem C8_tool_lookup :
    ∀ (s : Letta.Store) (ms : Memgpt.Store) (n u : String)
      (g p : Letta.ToolRow) (mg mp : Memgpt.ToolRow),
      (¬u = "" →
        Letta.get_tool s (some n) none (some u) =
          .ok ((s.tools.filter (fun t => t.name == n && t.user_id == Option.none) ++
                s.tools.filter (fun t => t.name == n && t.user_id == some u)).head?)) ∧
      (¬u = "" →
       s.tools.filter (fun t => t.name == n && t.user_id == Option.none) = [g] →
       s.tools.filter (fun t => t.name == n && t.user_id == some u) = [p] →
        Letta.get_tool s (some n) none (some u) = .ok (some g)) ∧
      (mg ∈ ms.tools → mg.name = n → mg.user_id = Option.none →
       mp ∈ ms.tools → mp.name = n → mp.user_id = some u →
        Memgpt.get_tool ms n (some u) = .error .integrity) ∧
      (ms.tools.filter (fun t => t.name == n && t.user_id == Option.none) = [mg] →
       ms.tools.filter (fun t => t.name == n && t.user_id == some u) = [] →
        Memgpt.get_tool ms n (some u) = .ok (some mg)) ∧
      (ms.tools.filter (fun t => t.name == n && t.user_id == Option.none) = [] →
       ms.tools.filter (fun t => t.name == n && t.user_id == some u) = [mp] →
        Memgpt.get_tool ms n (some u) = .ok (some mp)) := by
  intro s ms n u g p mg mp
  have hmain : ¬u = "" →
      Letta.get_tool s (some n) none (some u) =
        .ok ((s.tools.filter (fun t => t.name == n && t.user_id == Option.none) ++
              s.tools.filter (fun t => t.name == n && t.user_id == some u)).head?) := by
    intro hu
    have hub : (u == "") = false := beq_eq_false_iff_ne.mpr hu
    unfold Letta.get_tool
    simp only [optStrTruthy, hub, Bool.not_false, if_true, Bool.false_eq_true, if_false]
    cases hres : s.tools.filter (fun t => t.name == n && t.user_id == Option.none) ++
        s.tools.filter (fun t => t.name == n && t.user_id == some u) <;> rfl
  refine ⟨hmain, ?_, ?_, ?_, ?_⟩
  · intro hu hg hp
    rw [hmain hu, hg, hp]
    rfl
  · intro hg1 hg2 hg3 hp1 hp2 hp3
    unfold Memgpt.get_tool
    dsimp only
    apply one_or_none_of_two_le
    have hgm : mg ∈ ms.tools.filter (fun t => t.name == n && t.user_id == Option.none) :=
      List.mem_filter.mpr ⟨hg1, by simp [hg2, hg3]⟩
    have hpm : mp ∈ ms.tools.filter (fun t => t.name == n && t.user_id == some u) :=
      List.mem_filter.mpr ⟨hp1, by simp [hp2, hp3]⟩
    have h1 := List.length_pos.mpr (List.ne_nil_of_mem hgm)
    have h2 := List.length_pos.mpr (List.ne_nil_of_mem hpm)
    rw [List.length_append]
    omega
  · intro hg hp
    unfold Memgpt.get_tool
    dsimp only
    rw [hg, hp]
    rfl
  · intro hg hp
    unfold Memgpt.get_tool
    dsimp only
    rw [hg, hp]
    rfl

/-- Witness for C8: the duplicate-name store — letta returns the global row,
memgpt aborts with the integrity violation. -/
theorem C8_tool_lookup_witness :
    Letta.get_tool demoDupToolStore (some "search") none (some "u1") =
      .ok (some ⟨"t-global", "search", none⟩) ∧
    Memgpt.get_tool demoDupToolStoreM "search" (some "u1") = .error .integrity := by
  have h := C8_tool_lookup demoDupToolStore demoDupToolStoreM "search" "u1"
    ⟨"t-global", "search", none⟩ ⟨"t-priv", "search", some "u1"⟩
    ⟨"t-global", "search", none⟩ ⟨"t-priv", "search", some "u1"⟩
  exact ⟨h.2.1 (by decide) (by decide) (by decide),
         h.2.2.1 (by decide) rfl rfl (by decide) rfl rfl⟩

/-- C9: `create_block` checks uniqueness only among existing rows whose
template flag is set, scoped by (user id, label, name): a block matching an
existing template block on that scope fails with AlreadyExists, while a
non-template block duplicating another non-template block passes the check
and is inserted. -/
theorem C9_block_template_uniqueness :
    ∀ (s : Letta.Store) (b : Letta.BlockRow),
      ((∃ r ∈ s.blocks, r.name = b.name ∧ r.user_id = b.user_id ∧ r.template = true ∧
          r.label = b.label) →
        Letta.create_block s b = .error .alreadyExists) ∧
      ((¬∃ r ∈ s.blocks, r.name = b.name ∧ r.user_id = b.user_id ∧ r.template = true ∧
          r.label = b.label) →
        Letta.create_block s b = .ok { s with blocks := s.blocks ++ [b] }) := by
  intro s b
  constructor
  · rintro ⟨r, hr, h1, h2, h3, h4⟩
    have hmem : r ∈ s.blocks.filter (fun r =>
        r.name == b.name && r.user_id == b.user_id && r.template == true &&
        r.label == b.label) :=
      List.mem_filter.mpr ⟨hr, by simp [h1, h2, h3, h4]⟩
    have hpos := List.length_pos.mpr (List.ne_nil_of_mem hmem)
    unfold Letta.create_block
    rw [if_pos hpos]
  · intro hnone
    unfold Letta.create_block
    rw [if_neg]
    intro hpos
    apply hnone
    obtain ⟨r, hr⟩ := List.exists_mem_of_ne_nil _ (List.length_pos.mp hpos)
    obtain ⟨hrm, hcond⟩ := List.mem_filter.mp hr
    simp only [Bool.and_eq_true, beq_iff_eq] at hcond
    exact ⟨r, hrm, hcond.1.1.1, hcond.1.1.2, hcond.1.2, hcond.2⟩

/-- Witness for C9: a template persona block blocks a same-scope creation,
while a non-template duplicate name is permitted and inserted. -/
theorem C9_block_template_uniqueness_witness :
    Letta.create_block
        { emptyLettaStore with
          blocks := [⟨"b1", "v", "persona-x", true, some "persona", some "u1"⟩] }
        ⟨"b2", "w", "persona-x", false, some "persona", some "u1"⟩ =
      .error .alreadyExists ∧
    Letta.create_block
        { emptyLettaStore with
          blocks := [⟨"b1", "v", "persona-x", false, some "persona", some "u1"⟩] }
        ⟨"b2", "w", "persona-x", false, some "persona", some "u1"⟩ =
      .ok { emptyLettaStore with blocks :=
        [⟨"b1", "v", "persona-x", false, some "persona", some "u1"⟩,
         ⟨"b2", "w", "persona-x", false, some "persona", some "u1"⟩] } := by
  have h1 := C9_block_template_uniqueness
    { emptyLettaStore with
      blocks := [⟨"b1", "v", "persona-x", true, some "persona", some "u1"⟩] }
    ⟨"b2", "w", "persona-x", false, some "persona", some "u1"⟩
  have h2 := C9_block_template_uniqueness
    { emptyLettaStore with
      blocks := [⟨"b1", "v", "persona-x", false, some "persona", some "u1"⟩] }
    ⟨"b2", "w", "persona-x", false, some "persona", some "u1"⟩
  refine ⟨h1.1 ⟨⟨"b1", "v", "persona-x", true, some "persona", some "u1"⟩,
      by decide, rfl, rfl, rfl, rfl⟩, ?_⟩
  have hx := h2.2 (by decide)
  exact hx.trans (by rfl)

/-- C10: `delete_user` deletes, in the same transaction, the user row and
every Agent, Source and agent-source mapping row whose user id equals the
deleted user's id, and leaves rows belonging to other users (and unrelated
tables) unchanged. -/
theorem C10_delete_user_cascade :
    ∀ (ms : Memgpt.Store) (uid : String),
      (Memgpt.delete_user ms uid).users = ms.users.filter (fun x => !(x.id == uid)) ∧
      (Memgpt.delete_user ms uid).agents = ms.agents.filter (fun a => !(a.user_id == uid)) ∧
      (Memgpt.delete_user ms uid).sources = ms.sources.filter (fun r => !(r.user_id == uid)) ∧
      (Memgpt.delete_user ms uid).mappings =
        ms.mappings.filter (fun m => !(m.user_id == uid)) ∧
      (Memgpt.delete_user ms uid).tools = ms.tools ∧
      (∀ a, a ∈ (Memgpt.delete_user ms uid).agents ↔ a ∈ ms.agents ∧ ¬a.user_id = uid) ∧
      (∀ r, r ∈ (Memgpt.delete_user ms uid).sources ↔ r ∈ ms.sources ∧ ¬r.user_id = uid) ∧
      (∀ m, m ∈ (Memgpt.delete_user ms uid).mappings ↔
        m ∈ ms.mappings ∧ ¬m.user_id = uid) := by
  intro ms uid
  refine ⟨rfl, rfl, rfl, rfl, rfl, ?_, ?_, ?_⟩ <;>
    (intro x; simp [Memgpt.delete_user, List.mem_filter])
